import Mathlib

set_option maxRecDepth 10000

/-!
# Verification of the alert-to-incident correlation and delivery pipeline

A shallow embedding, in Lean 4, of the core of the `alert2snow-agent`
repository: the correlation-ID fingerprint (`GenerateCorrelationID`), the
alert-to-incident transformer (`Transform` and its cluster-name resolution),
the webhook batch handler (`ServeHTTP` / `processAlert`), and the resilient
delivery client's retry loop (`WithRetry`, `calculateBackoff`,
`checkResponse`).

Modelling conventions:
* Go `map[string]string` values are embedded as association lists
  (`List (String × String)`); a permutation of such a list with duplicate-free
  keys represents the same map under a different iteration order.
* Machine words are `Nat` with explicit `% 2^32` masking (SHA-256) –
  `time.Duration` values are `Nat` nanoseconds.
* The one nondeterministic ingredient of the retry loop – what each attempt
  of the effectful closure produces, and whether the caller's context is
  cancelled while the loop sleeps – is determinized into explicit oracle
  functions indexed by the attempt counter.
* Fallible operations return `Option`/`Except`.
-/

namespace AlertAgent

/-! ## Bytes and UTF-8

Go strings are byte sequences; `[]byte(s)` of a Go string produces its UTF-8
encoding.  We embed bytes as `Nat` (each `< 256` by construction) and encode
Lean strings through the standard UTF-8 scheme, matching Go's `[]byte`
conversion codepoint by codepoint. -/

/-- UTF-8 encoding of a single Unicode code point, as a list of bytes. -/
def utf8Bytes (c : Nat) : List Nat :=
  if c < 0x80 then [c]
  else if c < 0x800 then [0xC0 + c / 64, 0x80 + c % 64]
  else if c < 0x10000 then [0xE0 + c / 4096, 0x80 + c / 64 % 64, 0x80 + c % 64]
  else [0xF0 + c / 262144, 0x80 + c / 4096 % 64, 0x80 + c / 64 % 64, 0x80 + c % 64]

/-- The UTF-8 bytes of a string: Go's `[]byte(s)`. -/
def strBytes (s : String) : List Nat :=
  s.data.flatMap (fun c => utf8Bytes c.toNat)

/-! ## SHA-256

A direct embedding of the FIPS-180-4 SHA-256 function used by Go's
`crypto/sha256.Sum256`.  All word arithmetic is `Nat` masked to 32 bits. -/

/-- Truncate to a 32-bit word. -/
def w32 (n : Nat) : Nat := n % 2 ^ 32

/-- Right-rotation of a 32-bit word by `n` places. -/
def rotr (n x : Nat) : Nat := w32 ((x >>> n) ||| (x <<< (32 - n)))

/-- Bitwise complement of a 32-bit word. -/
def wnot (x : Nat) : Nat := x ^^^ (2 ^ 32 - 1)

/-- SHA-256 `Ch` function. -/
def ch (e f g : Nat) : Nat := (e &&& f) ^^^ (wnot e &&& g)

/-- SHA-256 `Maj` function. -/
def maj (a b c : Nat) : Nat := (a &&& b) ^^^ (a &&& c) ^^^ (b &&& c)

/-- SHA-256 big sigma-0. -/
def bsig0 (x : Nat) : Nat := rotr 2 x ^^^ rotr 13 x ^^^ rotr 22 x

/-- SHA-256 big sigma-1. -/
def bsig1 (x : Nat) : Nat := rotr 6 x ^^^ rotr 11 x ^^^ rotr 25 x

/-- SHA-256 small sigma-0. -/
def ssig0 (x : Nat) : Nat := rotr 7 x ^^^ rotr 18 x ^^^ (x >>> 3)

/-- SHA-256 small sigma-1. -/
def ssig1 (x : Nat) : Nat := rotr 17 x ^^^ rotr 19 x ^^^ (x >>> 10)

/-- The 64 SHA-256 round constants. -/
def sha256K : List Nat :=
  [0x428A2F98, 0x71374491, 0xB5C0FBCF, 0xE9B5DBA5,
   0x3956C25B, 0x59F111F1, 0x923F82A4, 0xAB1C5ED5,
   0xD807AA98, 0x12835B01, 0x243185BE, 0x550C7DC3,
   0x72BE5D74, 0x80DEB1FE, 0x9BDC06A7, 0xC19BF174,
   0xE49B69C1, 0xEFBE4786, 0x0FC19DC6, 0x240CA1CC,
   0x2DE92C6F, 0x4A7484AA, 0x5CB0A9DC, 0x76F988DA,
   0x983E5152, 0xA831C66D, 0xB00327C8, 0xBF597FC7,
   0xC6E00BF3, 0xD5A79147, 0x06CA6351, 0x14292967,
   0x27B70A85, 0x2E1B2138, 0x4D2C6DFC, 0x53380D13,
   0x650A7354, 0x766A0ABB, 0x81C2C92E, 0x92722C85,
   0xA2BFE8A1, 0xA81A664B, 0xC24B8B70, 0xC76C51A3,
   0xD192E819, 0xD6990624, 0xF40E3585, 0x106AA070,
   0x19A4C116, 0x1E376C08, 0x2748774C, 0x34B0BCB5,
   0x391C0CB3, 0x4ED8AA4A, 0x5B9CCA4F, 0x682E6FF3,
   0x748F82EE, 0x78A5636F, 0x84C87814, 0x8CC70208,
   0x90BEFFFA, 0xA4506CEB, 0xBEF9A3F7, 0xC67178F2]

/-- The eight 32-bit words of an intermediate SHA-256 hash value. -/
structure Hash8 where
  h0 : Nat
  h1 : Nat
  h2 : Nat
  h3 : Nat
  h4 : Nat
  h5 : Nat
  h6 : Nat
  h7 : Nat

/-- SHA-256 initial hash value. -/
def sha256H0 : Hash8 :=
  ⟨0x6A09E667, 0xBB67AE85, 0x3C6EF372, 0xA54FF53A,
   0x510E527F, 0x9B05688C, 0x1F83D9AB, 0x5BE0CD19⟩

/-- The eight working registers of the compression function. -/
structure Regs where
  a : Nat
  b : Nat
  c : Nat
  d : Nat
  e : Nat
  f : Nat
  g : Nat
  h : Nat

/-- One round of the SHA-256 compression function. -/
def sha256Round (r : Regs) (k w : Nat) : Regs :=
  let t1 := w32 (r.h + bsig1 r.e + ch r.e r.f r.g + k + w)
  let t2 := w32 (bsig0 r.a + maj r.a r.b r.c)
  ⟨w32 (t1 + t2), r.a, r.b, r.c, w32 (r.d + t1), r.e, r.f, r.g⟩

/-- Big-endian 32-bit word from four bytes. -/
def bytesToWord (bs : List Nat) : Nat := bs.foldl (fun a b => a * 256 + b) 0

/-- The sixteen message words of one 64-byte block. -/
def blockWords (block : List Nat) : List Nat :=
  (List.range 16).map (fun i => bytesToWord ((block.drop (4 * i)).take 4))

/-- Extend a message schedule by `k` further words (FIPS 180-4 §6.2.2 step 1). -/
def extendSchedule : List Nat → Nat → List Nat
  | w, 0 => w
  | w, k + 1 =>
    let n := w.length
    let next := w32 (ssig1 (w.getD (n - 2) 0) + w.getD (n - 7) 0 +
                     ssig0 (w.getD (n - 15) 0) + w.getD (n - 16) 0)
    extendSchedule (w ++ [next]) k

/-- Compress one 64-byte block into the running hash value. -/
def sha256Block (H : Hash8) (block : List Nat) : Hash8 :=
  let w := extendSchedule (blockWords block) 48
  let r0 : Regs := ⟨H.h0, H.h1, H.h2, H.h3, H.h4, H.h5, H.h6, H.h7⟩
  let r := (List.range 64).foldl
    (fun r i => sha256Round r (sha256K.getD i 0) (w.getD i 0)) r0
  ⟨w32 (H.h0 + r.a), w32 (H.h1 + r.b), w32 (H.h2 + r.c), w32 (H.h3 + r.d),
   w32 (H.h4 + r.e), w32 (H.h5 + r.f), w32 (H.h6 + r.g), w32 (H.h7 + r.h)⟩

/-- Big-endian 8-byte encoding of a number (the padded bit-length field). -/
def beBytes8 (n : Nat) : List Nat :=
  [n / 2 ^ 56 % 256, n / 2 ^ 48 % 256, n / 2 ^ 40 % 256, n / 2 ^ 32 % 256,
   n / 2 ^ 24 % 256, n / 2 ^ 16 % 256, n / 2 ^ 8 % 256, n % 256]

/-- SHA-256 message padding: `0x80`, then the number of zeros that brings the
length to 56 mod 64, then the 8-byte big-endian bit length. -/
def sha256Pad (msg : List Nat) : List Nat :=
  let zeros := (64 + 55 - msg.length % 64) % 64
  msg ++ 0x80 :: List.replicate zeros 0 ++ beBytes8 (msg.length * 8)

/-- Split a byte list into its consecutive 64-byte blocks.  The fuel argument
is the list length, which strictly dominates the number of blocks, keeping the
recursion structural (hence kernel-reducible). -/
def chunks64Fuel : Nat → List Nat → List (List Nat)
  | 0, _ => []
  | _, [] => []
  | fuel + 1, l => l.take 64 :: chunks64Fuel fuel (l.drop 64)

/-- The 64-byte blocks of a byte list. -/
def chunks64 (l : List Nat) : List (List Nat) := chunks64Fuel l.length l

/-- Big-endian bytes of one 32-bit word. -/
def wordBytes (w : Nat) : List Nat :=
  [w / 2 ^ 24 % 256, w / 2 ^ 16 % 256, w / 2 ^ 8 % 256, w % 256]

/-- SHA-256 of a byte sequence, as its 32-byte digest
(Go's `sha256.Sum256`). -/
def sha256Bytes (msg : List Nat) : List Nat :=
  let H := (chunks64 (sha256Pad msg)).foldl sha256Block sha256H0
  wordBytes H.h0 ++ wordBytes H.h1 ++ wordBytes H.h2 ++ wordBytes H.h3 ++
  wordBytes H.h4 ++ wordBytes H.h5 ++ wordBytes H.h6 ++ wordBytes H.h7

/-! ## Hexadecimal encoding (Go `encoding/hex`) -/

/-- The lowercase hex digit table (`hextable` in Go's `encoding/hex`). -/
def hexTable : List Char := "0123456789abcdef".data

/-- The hex digit for a nibble. -/
def hexDigitChar (n : Nat) : Char := hexTable.getD n '0'

/-- The two hex digits of one byte: `hextable[b>>4]`, `hextable[b&0x0F]`. -/
def byteHex (b : Nat) : List Char := [hexDigitChar (b / 16), hexDigitChar (b % 16)]

/-- Go's `hex.EncodeToString` over a byte list. -/
def hexEncode (bs : List Nat) : String := ⟨bs.flatMap byteHex⟩

/-! ## GenerateCorrelationID (`internal/webhook/transform.go`)

Label maps are embedded as association lists with duplicate-free keys.
`sort.Strings` is an ascending lexicographic sort; we model it with
`List.insertionSort (· ≤ ·)` — any correct sort produces the same list, since
sorted permutations of one another under a linear order are equal. -/

/-- Reading a key from a Go `map[string]string`: the stored value, or the zero
value `""` when absent. -/
def lookupLabel (labels : List (String × String)) (k : String) : String :=
  (labels.lookup k).getD ""

/-- The lexicographically sorted keys of a label map
(`sort.Strings(keys)` in `GenerateCorrelationID`). -/
def sortedKeys (labels : List (String × String)) : List String :=
  (labels.map Prod.fst).insertionSort (· ≤ ·)

/-- The canonical string hashed by `GenerateCorrelationID`: the alert name
followed by each key and its value in sorted key order, with no separators. -/
def canonicalString (alertname : String) (labels : List (String × String)) : String :=
  (sortedKeys labels).foldl (fun acc k => acc ++ k ++ lookupLabel labels k) alertname

/-- The SHA-256 digest of a string's bytes, truncated to its first 8 bytes
(`hash[:8]` in the source). -/
def truncDigest (s : String) : List Nat := (sha256Bytes (strBytes s)).take 8

/-- `GenerateCorrelationID`: hex encoding of the first 8 bytes of the SHA-256
digest of the canonical string — 16 hex characters. -/
def GenerateCorrelationID (alertname : String) (labels : List (String × String)) : String :=
  hexEncode (truncDigest (canonicalString alertname labels))

/-! ## Configuration and alert records

The `config` and `models` packages hold only plain data declarations; the
fields below are the ones the transformer and handler read.  `StartsAt` is
embedded as its rendered form (`StartsAt.UTC().Format("2006-01-02 15:04:05
UTC")`), the only use the modelled code makes of it. -/

/-- The configuration fields consumed by the transformer. -/
structure Config where
  clusterLabelKey : String
  environmentLabelKey : String
  serviceNowImpact : String
  serviceNowUrgency : String
  serviceNowCategory : String
  serviceNowSubcategory : String
  serviceNowAssignmentGroup : String
  serviceNowCallerID : String
deriving DecidableEq

/-- One Alertmanager alert, as read by the transformer and handler. -/
structure Alert where
  status : String
  labels : List (String × String)
  annotations : List (String × String)
  startsAtFormatted : String
  generatorURL : String
deriving DecidableEq

/-- The outbound ServiceNow incident payload. -/
structure ServiceNowIncident where
  shortDescription : String
  description : String
  impact : String
  urgency : String
  category : String
  subcategory : String
  assignmentGroup : String
  callerID : String
  correlationID : String
deriving DecidableEq

/-! ## Cluster-name extraction (`extractClusterFromURL`)

`strings.Index` is embedded as `firstInfixIdx` over character lists.  The
needle strings involved (`".apps."`, `"."`) are ASCII, so byte positions and
character positions select the same occurrence and the extracted substrings
coincide. -/

/-- First index at which `sub` occurs in `l` (Go `strings.Index`; `none` for
Go's `-1`). -/
def firstInfixIdx : List Char → List Char → Option Nat
  | [], sub => if sub.isPrefixOf ([] : List Char) then some 0 else none
  | l@(_ :: t), sub =>
    if sub.isPrefixOf l then some 0 else (firstInfixIdx t sub).map (· + 1)

/-- The suffix of `l` after the last occurrence of `c` (all of `l` when `c`
does not occur). -/
def dropThroughLast (l : List Char) (c : Char) : List Char :=
  (l.reverse.takeWhile (· ≠ c)).reverse

/-- The prefix of `l` before the last occurrence of `c` (all of `l` when `c`
does not occur): Go's `stripPort`. -/
def takeUntilLast (l : List Char) (c : Char) : List Char :=
  let suffix := l.reverse.takeWhile (· ≠ c)
  if suffix.length = l.length then l else l.take (l.length - suffix.length - 1)

/-- The hostname of an absolute URL: models `url.Parse(raw).Hostname()` for
the `scheme://[userinfo@]host[:port][/path...]` shapes this code receives —
the text between `"://"` and the next `/`, `?` or `#`, with userinfo and port
stripped.  URLs without an authority component (no `"://"`) have an empty
`Host` in Go and yield `""` here; IPv6 bracket syntax is outside the shapes
exercised. -/
def hostnameOf (rawURL : String) : String :=
  match firstInfixIdx rawURL.data "://".data with
  | none => ""
  | some i =>
    let authority := (rawURL.data.drop (i + 3)).takeWhile
      (fun c => c ≠ '/' && c ≠ '?' && c ≠ '#')
    let hostport := dropThroughLast authority '@'
    ⟨takeUntilLast hostport ':'⟩

/-- The `".apps."` scan of `extractClusterFromURL`: find the first `".apps."`
in the hostname, take everything after it, cut at the next `"."` (or keep the
whole remainder when no further dot exists). -/
def clusterFromHost (host : String) : String :=
  match firstInfixIdx host.data ".apps.".data with
  | none => ""
  | some appsIdx =>
    let afterApps := host.data.drop (appsIdx + 6)
    match firstInfixIdx afterApps ".".data with
    | none => ⟨afterApps⟩
    | some dotIdx => ⟨afterApps.take dotIdx⟩

/-- `extractClusterFromURL`: parse the URL, extract the cluster segment of an
`<app>.apps.<cluster>.<domain>` hostname, `""` when the pattern is absent. -/
def extractClusterFromURL (rawURL : String) : String :=
  clusterFromHost (hostnameOf rawURL)

/-- `extractClusterName`: the configured cluster label when non-empty, else
the cluster extracted from a non-empty `GeneratorURL`, else `""`. -/
def extractClusterName (cfg : Config) (alert : Alert) : String :=
  let fromLabel := lookupLabel alert.labels cfg.clusterLabelKey
  if fromLabel ≠ "" then fromLabel
  else if alert.generatorURL ≠ "" then
    let fromURL := extractClusterFromURL alert.generatorURL
    if fromURL ≠ "" then fromURL else ""
  else ""

/-! ## Incident construction (`Transform` and helpers) -/

/-- `buildShortDescription`: `[<cluster-or-unknown>] <alertname>` with an
`in namespace:` suffix when a namespace label is present. -/
def buildShortDescription (cluster alertname ns : String) : String :=
  let cluster := if cluster = "" then "unknown-cluster" else cluster
  if ns ≠ "" then "[" ++ cluster ++ "] " ++ alertname ++ " in namespace: " ++ ns
  else "[" ++ cluster ++ "] " ++ alertname

/-- The uppercase hex digit table used by Go's URL escaping. -/
def upperHexTable : List Char := "0123456789ABCDEF".data

/-- Whether `url.PathEscape` escapes a byte (Go `shouldEscape` with
`encodePathSegment`): everything except alphanumerics, `-._~` and the
reserved characters `$&+:=@` that path segments may carry unescaped. -/
def shouldEscapeSegment (b : Nat) : Bool :=
  !((0x61 ≤ b && b ≤ 0x7A) || (0x41 ≤ b && b ≤ 0x5A) || (0x30 ≤ b && b ≤ 0x39) ||
    b = 0x2D || b = 0x5F || b = 0x2E || b = 0x7E ||
    b = 0x24 || b = 0x26 || b = 0x2B || b = 0x3A || b = 0x3D || b = 0x40)

/-- Go's `url.PathEscape`: percent-encode every byte the path-segment mode
escapes.  Unescaped bytes are ASCII, so emitting them as single characters
matches Go's byte-level output. -/
def pathEscape (s : String) : String :=
  ⟨(strBytes s).flatMap (fun b =>
    if shouldEscapeSegment b then
      ['%', upperHexTable.getD (b / 16) '0', upperHexTable.getD (b % 16) '0']
    else [Char.ofNat b])⟩

/-- `buildConsoleURL`: the fixed OpenShift console URL template. -/
def buildConsoleURL (cluster ns : String) : String :=
  "https://console-openshift-console.apps." ++ pathEscape cluster ++
    ".example.com/k8s/cluster/projects/" ++ pathEscape ns

/-- `buildDescription`: the ordered long-form incident body. -/
def buildDescription (alert : Alert)
    (cluster environment severity ns pod container : String) : String :=
  let b := "Alert: " ++ lookupLabel alert.labels "alertname" ++ "\n" ++
           "Cluster: " ++ cluster ++ "\n" ++
           "Environment: " ++ environment ++ "\n" ++
           "Severity: " ++ severity ++ "\n" ++
           "Started At: " ++ alert.startsAtFormatted ++ "\n"
  let summary := lookupLabel alert.annotations "summary"
  let b := if summary ≠ "" then b ++ "\nSummary:\n" ++ summary ++ "\n" else b
  let desc := lookupLabel alert.annotations "description"
  let b := if desc ≠ "" then b ++ "\nDescription:\n" ++ desc ++ "\n" else b
  let b :=
    if ns ≠ "" || pod ≠ "" || container ≠ "" then
      let b := b ++ "\nResource Information:\n"
      let b := if ns ≠ "" then b ++ "  Namespace: " ++ ns ++ "\n" else b
      let b := if pod ≠ "" then b ++ "  Pod: " ++ pod ++ "\n" else b
      if container ≠ "" then b ++ "  Container: " ++ container ++ "\n" else b
    else b
  let b :=
    if cluster ≠ "" && ns ≠ "" then
      b ++ "\nOpenShift Console: " ++ buildConsoleURL cluster ns ++ "\n"
    else b
  let b :=
    if alert.generatorURL ≠ "" then
      b ++ "\nPrometheus Link: " ++ alert.generatorURL ++ "\n"
    else b
  let b := b ++ "\nAll Labels:\n"
  (sortedKeys alert.labels).foldl
    (fun acc k => acc ++ "  " ++ k ++ ": " ++ lookupLabel alert.labels k ++ "\n") b

/-- `Transform`: build the outgoing ServiceNow incident from one alert.
(The `externalURL` parameter is accepted and unused, as in the source.) -/
def Transform (cfg : Config) (alert : Alert) (externalURL : String) : ServiceNowIncident :=
  let _ := externalURL
  let alertname := lookupLabel alert.labels "alertname"
  let cluster := extractClusterName cfg alert
  let ns := lookupLabel alert.labels "namespace"
  let pod := lookupLabel alert.labels "pod"
  let container := lookupLabel alert.labels "container"
  let severity := lookupLabel alert.labels "severity"
  let environment := lookupLabel alert.labels cfg.environmentLabelKey
  { shortDescription := buildShortDescription cluster alertname ns
    description := buildDescription alert cluster environment severity ns pod container
    impact := cfg.serviceNowImpact
    urgency := cfg.serviceNowUrgency
    category := cfg.serviceNowCategory
    subcategory := cfg.serviceNowSubcategory
    assignmentGroup := cfg.serviceNowAssignmentGroup
    callerID := cfg.serviceNowCallerID
    correlationID := GenerateCorrelationID alertname alert.labels }

/-! ## Retry with exponential backoff (`internal/servicenow/retry.go`)

The retry loop's only effects are the per-attempt outcome of the supplied
closure and the cancellable sleep.  Both are determinized: `fn n` is what the
closure's `n`-th invocation produces (`none` = success), and `cancelled n`
says whether the caller's context is (or becomes) done during the backoff
wait that follows attempt `n`, making the `select` take the `ctx.Done()`
branch.  The returned trace records the outcome, how many attempts ran, and
the backoff delays that were actually waited out, in order. -/

/-- An error as classified by the client: `RetryableError` carrying an HTTP
status code, or a plain unclassified error (transport or parse failure). -/
inductive SnowError where
  | classified (statusCode : Nat)
  | plain (msg : String)
deriving DecidableEq

/-- The 4xx short-circuit test of `WithRetry`: `errors.As` into
`*RetryableError` succeeding with `400 <= StatusCode < 500`. -/
def isClient4xx : SnowError → Bool
  | .classified s => 400 ≤ s && s < 500
  | .plain _ => false

/-- Retry configuration; delays are nanoseconds (`time.Duration`). -/
structure RetryConfig where
  maxAttempts : Nat
  baseDelay : Nat
  maxDelay : Nat
deriving DecidableEq

/-- `DefaultRetryConfig`: 3 attempts, 1s base, 10s max. -/
def DefaultRetryConfig : RetryConfig :=
  { maxAttempts := 3, baseDelay := 1000000000, maxDelay := 10000000000 }

/-- Number of binary digits of `n` (0 for 0), via structural recursion on a
fuel argument so that it reduces inside the kernel. -/
def bitLenFuel : Nat → Nat → Nat
  | 0, _ => 0
  | fuel + 1, n => if n = 0 then 0 else bitLenFuel fuel (n / 2) + 1

/-- Number of binary digits of `n`. -/
def bitLen (n : Nat) : Nat := bitLenFuel n n

/-- Round a natural number to the nearest IEEE-754 double (53-bit
significand, ties to even): the value of Go's `float64(baseDelay)` for
non-negative durations below the overflow range. -/
def round53 (n : Nat) : Nat :=
  if n ≤ 2 ^ 53 then n
  else
    let k := bitLen n - 53
    let q := n / 2 ^ k
    let r := n % 2 ^ k
    let half := 2 ^ (k - 1)
    if half < r || (r = half && q % 2 = 1) then (q + 1) * 2 ^ k else q * 2 ^ k

/-- `calculateBackoff`: Go computes
`time.Duration(float64(baseDelay) * math.Pow(2, float64(attempt)))` and
clamps to `maxDelay`.  `float64(baseDelay)` rounds the duration to 53
significant bits (`round53`); `math.Pow(2, k)` is exactly `2^k` for integral
`k`; multiplying a double by a power of two only shifts its exponent, so the
product's value is exactly `round53 baseDelay * 2^attempt` (or `+Inf` past
the double range).  Converting that value to `time.Duration` (int64) is
exact below `2^63`; at or above `2^63` — including `+Inf` — the conversion
is out of range, and on the repository's build target (the Dockerfile
cross-compiles to `amd64`, whose `CVTTSD2SI` yields the integer indefinite
value) the result is `INT64_MIN = -2^63`.  A negative delay survives the
clamp (`delay > maxDelay` is false) and makes the subsequent
`time.After(delay)` fire immediately. -/
def calculateBackoff (attempt baseDelay maxDelay : Nat) : Int :=
  let f := round53 baseDelay * 2 ^ attempt
  let delay : Int := if f < 2 ^ 63 then (f : Int) else -(2 ^ 63)
  if (maxDelay : Int) < delay then (maxDelay : Int) else delay

/-- Outcome of a `WithRetry` run: success, a final error, or the caller's
context cancellation surfaced from the backoff wait. -/
inductive RetryOutcome where
  | ok
  | failed (e : SnowError)
  | ctxCancelled
deriving DecidableEq

/-- Observable trace of one `WithRetry` run.  Each entry of `waits` is the
`time.Duration` passed to the backoff sleep, in nanoseconds; a negative
entry is a wait that fires immediately. -/
structure RetryTrace where
  outcome : RetryOutcome
  attempts : Nat
  waits : List Int
deriving DecidableEq

/-- The loop body of `WithRetry`: `attempt` is the current 0-based attempt
index, `remaining` the number of loop iterations left
(`cfg.MaxAttempts - attempt`), `lastErr` the Go `lastErr` variable, `waits`
the delays waited so far. -/
def retryGo (fn : Nat → Option SnowError) (cancelled : Nat → Bool)
    (base maxD : Nat) :
    Nat → Nat → Option SnowError → List Int → RetryTrace
  | attempt, 0, lastErr, waits =>
    { outcome := match lastErr with | none => .ok | some e => .failed e
      attempts := attempt
      waits := waits }
  | attempt, r + 1, _, waits =>
    match fn attempt with
    | none => { outcome := .ok, attempts := attempt + 1, waits := waits }
    | some e =>
      if isClient4xx e then
        { outcome := .failed e, attempts := attempt + 1, waits := waits }
      else if r = 0 then
        { outcome := .failed e, attempts := attempt + 1, waits := waits }
      else if cancelled attempt then
        { outcome := .ctxCancelled, attempts := attempt + 1, waits := waits }
      else
        retryGo fn cancelled base maxD (attempt + 1) r (some e)
          (waits ++ [calculateBackoff attempt base maxD])

/-- `WithRetry`: run `fn` up to `cfg.maxAttempts` times with exponential
backoff, short-circuiting 4xx-classified errors and context cancellation.
(With `MaxAttempts = 0` the Go loop never runs and `lastErr` is `nil`, so the
call reports success.) -/
def WithRetry (cfg : RetryConfig) (fn : Nat → Option SnowError)
    (cancelled : Nat → Bool) : RetryTrace :=
  retryGo fn cancelled cfg.baseDelay cfg.maxDelay 0 cfg.maxAttempts none []

/-- `checkResponse`: 2xx passes, every other status is wrapped as a
classified `RetryableError` carrying the status code. -/
def checkResponse (statusCode : Nat) : Option SnowError :=
  if 200 ≤ statusCode ∧ statusCode < 300 then none
  else some (.classified statusCode)

/-! ## The delivery client's operations over the retry loop

One HTTP attempt is determinized as either a transport error
(`httpClient.Do` failing) or a response with a status code and a body whose
read-and-unmarshal outcome is abstracted to `Except Unit α` (`.error` covers
both `io.ReadAll` and `json.Unmarshal` failures). -/

/-- The environment's answer to one HTTP attempt. -/
inductive HttpAttempt (α : Type) where
  | transportErr
  | response (status : Nat) (body : Except Unit α)

/-- Result of creating an incident (`CreateIncidentResult`). -/
structure CreateIncidentResult where
  sysID : String
  number : String
deriving DecidableEq

/-- A ServiceNow incident record (`models.ServiceNowResult`). -/
structure SNResult where
  sysID : String
  number : String
  state : String
  correlationID : String
  shortDescription : String
deriving DecidableEq

/-- One attempt of `CreateIncident`'s closure: transport errors and body
read/unmarshal failures are plain (unclassified) errors; non-2xx statuses are
classified by `checkResponse`. -/
def createAttempt (env : Nat → HttpAttempt CreateIncidentResult) (n : Nat) :
    Option SnowError :=
  match env n with
  | .transportErr => some (.plain "failed to send request")
  | .response st body =>
    match checkResponse st with
    | some e => some e
    | none =>
      match body with
      | .error _ => some (.plain "failed to read or unmarshal response")
      | .ok _ => none

/-- `CreateIncident`: the retry trace plus the parsed result.  The `result`
variable is assigned only by a fully successful attempt, and a successful
attempt ends the loop, so on success it holds the final attempt's parsed
body. -/
def CreateIncident (cfg : RetryConfig)
    (env : Nat → HttpAttempt CreateIncidentResult) (cancelled : Nat → Bool) :
    RetryTrace × Option CreateIncidentResult :=
  let tr := WithRetry cfg (createAttempt env) cancelled
  (tr,
   match tr.outcome with
   | .ok =>
     match env (tr.attempts - 1) with
     | .response _ (.ok r) => some r
     | _ => none
   | _ => none)

/-- One attempt of `FindIncidentByCorrelationID`'s closure: identical
classification, with the body parsed as a result list.  An empty list is a
successful attempt. -/
def findAttempt (env : Nat → HttpAttempt (List SNResult)) (n : Nat) :
    Option SnowError :=
  match env n with
  | .transportErr => some (.plain "failed to send request")
  | .response st body =>
    match checkResponse st with
    | some e => some e
    | none =>
      match body with
      | .error _ => some (.plain "failed to read or unmarshal response")
      | .ok _ => none

/-- `FindIncidentByCorrelationID`: the retry trace plus the zero-or-one
matching record — `none` (absent) when the lookup succeeded with an empty
result list, which is not an error. -/
def FindIncidentByCorrelationID (cfg : RetryConfig)
    (env : Nat → HttpAttempt (List SNResult)) (cancelled : Nat → Bool) :
    RetryTrace × Option SNResult :=
  let tr := WithRetry cfg (findAttempt env) cancelled
  (tr,
   match tr.outcome with
   | .ok =>
     match env (tr.attempts - 1) with
     | .response _ (.ok results) => results.head?
     | _ => none
   | _ => none)

/-! ## The webhook handler (`internal/webhook/handler.go`)

The handler's collaborator (the `ServiceNowClient` interface) is
determinized as three oracle functions indexed by how many calls of that
operation came before; the recorded call lists mirror the test double's
`createCalls`/`resolveCalls`.  Errors are opaque to the handler — only their
presence matters — so they are carried as strings. -/

/-- Determinized `ServiceNowClient`: the outcome of the `n`-th create, find,
and resolve call. -/
structure ClientBehavior where
  create : Nat → Except String CreateIncidentResult
  find : Nat → Except String (Option SNResult)
  resolve : Nat → Except String Unit

/-- The calls a handler run has made so far. -/
structure ProcState where
  createCalls : List ServiceNowIncident
  findCalls : Nat
  resolveCalls : List String
deriving DecidableEq

/-- No calls made yet. -/
def emptyProcState : ProcState := ⟨[], 0, []⟩

/-- Modelled from the spec: the `models` package's alert status constant for
an ongoing alert (the package itself holds only declarations and is not under
`src/`; the spec fixes the status strings as `firing`/`resolved`, and the
in-repo handler tests drive the firing path with status `"firing"`). -/
def AlertStatusFiring : String := "firing"

/-- Modelled from the spec: the `models` package's alert status constant for
a cleared alert (see `AlertStatusFiring`). -/
def AlertStatusResolved : String := "resolved"

/-- `handleFiringAlert`: transform the alert and call `CreateIncident`;
surface its error, if any. -/
def handleFiringAlert (client : ClientBehavior) (cfg : Config) (alert : Alert)
    (externalURL : String) (st : ProcState) : Option String × ProcState :=
  let incident := Transform cfg alert externalURL
  let idx := st.createCalls.length
  let st := { st with createCalls := st.createCalls ++ [incident] }
  match client.create idx with
  | .error e => (some e, st)
  | .ok _ => (none, st)

/-- `handleResolvedAlert`: look up the incident by correlation ID; absent is
a logged no-op, present triggers one `ResolveIncident` call. -/
def handleResolvedAlert (client : ClientBehavior)
    (correlationID alertname : String) (st : ProcState) :
    Option String × ProcState :=
  let _ := correlationID
  let _ := alertname
  let idx := st.findCalls
  let st := { st with findCalls := st.findCalls + 1 }
  match client.find idx with
  | .error e => (some e, st)
  | .ok none => (none, st)
  | .ok (some existing) =>
    let ridx := st.resolveCalls.length
    let st := { st with resolveCalls := st.resolveCalls ++ [existing.sysID] }
    match client.resolve ridx with
    | .error e => (some e, st)
    | .ok _ => (none, st)

/-- `processAlert`: dispatch one alert by status; unknown statuses are
skipped with a warning, not an error. -/
def processAlert (client : ClientBehavior) (cfg : Config) (alert : Alert)
    (externalURL : String) (st : ProcState) : Option String × ProcState :=
  let alertname := lookupLabel alert.labels "alertname"
  let correlationID := GenerateCorrelationID alertname alert.labels
  if alert.status = AlertStatusFiring then
    handleFiringAlert client cfg alert externalURL st
  else if alert.status = AlertStatusResolved then
    handleResolvedAlert client correlationID alertname st
  else (none, st)

/-- An inbound Alertmanager batch (`models.AlertmanagerPayload`). -/
structure AlertmanagerPayload where
  version : String
  status : String
  receiver : String
  externalURL : String
  alerts : List Alert
deriving DecidableEq

/-- What `ServeHTTP` writes back plus the calls it made. -/
structure HandlerResponse where
  code : Nat
  errCount : Nat
  state : ProcState
deriving DecidableEq

/-- `ServeHTTP`: non-POST → 405; unreadable body or malformed JSON (`parsed
= none`) → 400; otherwise process every alert in order, counting per-alert
failures, and answer 200 regardless of how many failed. -/
def ServeHTTP (client : ClientBehavior) (cfg : Config) (method : String)
    (parsed : Option AlertmanagerPayload) : HandlerResponse :=
  if method ≠ "POST" then ⟨405, 0, emptyProcState⟩
  else
    match parsed with
    | none => ⟨400, 0, emptyProcState⟩
    | some payload =>
      let res := payload.alerts.foldl
        (fun (acc : Nat × ProcState) alert =>
          match processAlert client cfg alert payload.externalURL acc.2 with
          | (some _, st) => (acc.1 + 1, st)
          | (none, st) => (acc.1, st))
        (0, emptyProcState)
      ⟨200, res.1, res.2⟩

/-! ## Facts about the fingerprint -/

/-- `List.lookup` sees only the map a duplicate-key-free association list
represents, not its order. -/
lemma lookup_eq_of_perm (k : String) {l1 l2 : List (String × String)}
    (h : l1.Perm l2) :
    (l1.map Prod.fst).Nodup → l1.lookup k = l2.lookup k := by
  induction h with
  | nil => intro _; rfl
  | cons x h ih =>
    intro nd
    simp only [List.map_cons, List.nodup_cons] at nd
    cases hx : (k == x.1) <;> simp [List.lookup, hx]
    exact ih nd.2
  | swap x y t =>
    intro nd
    have hne : y.1 ≠ x.1 := by
      simp only [List.map_cons, List.nodup_cons, List.mem_cons] at nd
      exact fun hcon => nd.1 (Or.inl hcon)
    cases hy : (k == y.1) <;> cases hx : (k == x.1)
    · simp [List.lookup, hx, hy]
    · simp [List.lookup, hx, hy]
    · simp [List.lookup, hx, hy]
    · exact (hne ((eq_of_beq hy).symm.trans (eq_of_beq hx))).elim
  | trans h1 h2 ih1 ih2 =>
    intro nd
    have nd2 : _ := ((h1.map Prod.fst).nodup_iff).mp nd
    exact (ih1 nd).trans (ih2 nd2)

/-- The sorted key list — hence the canonical string — depends only on the
represented map. -/
lemma sortedKeys_eq_of_perm {l1 l2 : List (String × String)} (h : l1.Perm l2) :
    sortedKeys l1 = sortedKeys l2 := by
  have hperm : (sortedKeys l1).Perm (sortedKeys l2) :=
    (List.perm_insertionSort _ _).trans
      ((h.map Prod.fst).trans (List.perm_insertionSort _ _).symm)
  have hs1 : (sortedKeys l1).Sorted (· ≤ ·) := List.sorted_insertionSort _ _
  have hs2 : (sortedKeys l2).Sorted (· ≤ ·) := List.sorted_insertionSort _ _
  exact List.eq_of_perm_of_sorted hperm hs1 hs2

/-- The canonical string is invariant under permutation of the label list
(with duplicate-free keys, as Go map iteration guarantees). -/
lemma canonicalString_perm (name : String) {l1 l2 : List (String × String)}
    (h : l1.Perm l2) (nd : (l1.map Prod.fst).Nodup) :
    canonicalString name l1 = canonicalString name l2 := by
  unfold canonicalString
  rw [sortedKeys_eq_of_perm h]
  have hlook : ∀ k, lookupLabel l1 k = lookupLabel l2 k := fun k => by
    unfold lookupLabel; rw [lookup_eq_of_perm k h nd]
  have : ∀ (ks : List String) (acc : String),
      ks.foldl (fun acc k => acc ++ k ++ lookupLabel l1 k) acc =
      ks.foldl (fun acc k => acc ++ k ++ lookupLabel l2 k) acc := by
    intro ks
    induction ks with
    | nil => intro _; rfl
    | cons k t ih => intro acc; simp only [List.foldl_cons]; rw [hlook k]; exact ih _
  exact this _ _

/-- Every byte of a word's big-endian encoding is below 256. -/
lemma wordBytes_lt (w : Nat) : ∀ b ∈ wordBytes w, b < 256 := by
  intro b hb
  simp [wordBytes] at hb
  rcases hb with h | h | h | h <;> subst h <;> exact Nat.mod_lt _ (by norm_num)

/-- The SHA-256 digest has 32 bytes. -/
lemma sha256Bytes_length (msg : List Nat) : (sha256Bytes msg).length = 32 := by
  unfold sha256Bytes
  simp [wordBytes]

/-- Every digest byte is below 256. -/
lemma sha256Bytes_lt (msg : List Nat) : ∀ b ∈ sha256Bytes msg, b < 256 := by
  unfold sha256Bytes
  intro b hb
  simp only [List.mem_append] at hb
  rcases hb with ((((((h | h) | h) | h) | h) | h) | h) | h <;>
    exact wordBytes_lt _ _ h

/-- The truncated digest has exactly 8 bytes. -/
lemma truncDigest_length (s : String) : (truncDigest s).length = 8 := by
  unfold truncDigest
  simp [sha256Bytes_length]

/-- Truncated digest bytes are below 256. -/
lemma truncDigest_lt (s : String) : ∀ b ∈ truncDigest s, b < 256 :=
  fun b hb => sha256Bytes_lt _ b (List.take_subset _ _ hb)

/-- Every hex digit the encoder can emit is in the digit table. -/
lemma hexDigitChar_mem (n : Nat) : hexDigitChar n ∈ hexTable := by
  by_cases h : n < 16
  · interval_cases n <;> decide
  · have hnone : hexTable.get? n = none := by
      apply List.get?_eq_none.mpr
      have : hexTable.length = 16 := by decide
      omega
    simp only [hexDigitChar, List.getD, hnone, Option.getD_none]
    decide

/-- Length of a hex encoding: two characters per byte. -/
lemma hexEncode_length (bs : List Nat) : (hexEncode bs).length = 2 * bs.length := by
  show (bs.flatMap byteHex).length = 2 * bs.length
  induction bs with
  | nil => rfl
  | cons b t ih => simp [byteHex, ih]; ring

/-- Every character of a hex encoding is a hex digit. -/
lemma hexEncode_mem (bs : List Nat) :
    ∀ c ∈ (hexEncode bs).data, c ∈ hexTable := by
  show ∀ c ∈ bs.flatMap byteHex, c ∈ hexTable
  intro c hc
  rcases List.mem_flatMap.mp hc with ⟨b, _, hcb⟩
  simp [byteHex] at hcb
  rcases hcb with h | h <;> subst h <;> exact hexDigitChar_mem _

/-- The digit table is injective below 16. -/
lemma hexDigitChar_inj : ∀ m < 16, ∀ n < 16, hexDigitChar m = hexDigitChar n → m = n := by
  decide

/-- Hex encoding is injective on byte lists. -/
lemma hexEncode_inj {bs1 bs2 : List Nat} (h1 : ∀ b ∈ bs1, b < 256)
    (h2 : ∀ b ∈ bs2, b < 256) (he : hexEncode bs1 = hexEncode bs2) :
    bs1 = bs2 := by
  induction bs1 generalizing bs2 with
  | nil =>
    cases bs2 with
    | nil => rfl
    | cons b t =>
      have hd := congrArg String.data he
      simp [hexEncode, byteHex] at hd
  | cons b t ih =>
    cases bs2 with
    | nil =>
      have hd := congrArg String.data he
      simp [hexEncode, byteHex] at hd
    | cons b' t' =>
      have hd := congrArg String.data he
      simp only [hexEncode, byteHex, List.flatMap_cons, List.cons_append,
        List.nil_append, List.cons.injEq] at hd
      obtain ⟨e1, e2, e3⟩ := hd
      have hb : b < 256 := h1 b (by simp)
      have hb' : b' < 256 := h2 b' (by simp)
      have hhi : b / 16 = b' / 16 :=
        hexDigitChar_inj _ (by omega) _ (by omega) e1
      have hlo : b % 16 = b' % 16 :=
        hexDigitChar_inj _ (Nat.mod_lt _ (by norm_num)) _
          (Nat.mod_lt _ (by norm_num)) e2
      have hbb : b = b' := by omega
      have ht : t = t' :=
        ih (fun x hx => h1 x (by simp [hx])) (fun x hx => h2 x (by simp [hx]))
          (congrArg String.mk e3)
      rw [hbb, ht]

/-- Claim C1: `GenerateCorrelationID` is a pure deterministic function — two
calls with the same alert name and the same label key-value pairs return the
same string under any permutation of the label list (determinism itself is
definitional, since the embedding is a function) — and its output is always
exactly 16 characters, all lowercase hexadecimal digits. -/
theorem correlationID_pure_deterministic_16hex :
    (∀ (name : String) (l1 l2 : List (String × String)),
        l1.Perm l2 → (l1.map Prod.fst).Nodup →
        GenerateCorrelationID name l1 = GenerateCorrelationID name l2) ∧
    (∀ (name : String) (labels : List (String × String)),
        (GenerateCorrelationID name labels).length = 16 ∧
        ∀ c ∈ (GenerateCorrelationID name labels).data, c ∈ hexTable) := by
  constructor
  · intro name l1 l2 h nd
    unfold GenerateCorrelationID
    rw [canonicalString_perm name h nd]
  · intro name labels
    refine ⟨?_, ?_⟩
    · show (hexEncode (truncDigest (canonicalString name labels))).length = 16
      rw [hexEncode_length, truncDigest_length]
    · intro c hc
      exact hexEncode_mem _ c hc

/-- Witness for C1: the spec's own example — `TestAlert` with a `severity:
warning` label set, presented in two different orders. -/
theorem correlationID_pure_deterministic_16hex_witness :
    (([("severity", "warning"), ("alertname", "TestAlert")] :
        List (String × String)).Perm
      [("alertname", "TestAlert"), ("severity", "warning")]) ∧
    GenerateCorrelationID "TestAlert"
        [("severity", "warning"), ("alertname", "TestAlert")] =
      GenerateCorrelationID "TestAlert"
        [("alertname", "TestAlert"), ("severity", "warning")] :=
  ⟨by decide,
   correlationID_pure_deterministic_16hex.1 "TestAlert" _ _ (by decide) (by decide)⟩

/-- Counterexample to C2: the canonical serialization concatenates alert
name, keys and values with no separators, so the distinct label maps
`{bc: ""}` and `{b: "c"}` (which differ in their only key) serialize
identically under alert name `"A"`, and `GenerateCorrelationID` returns the
same string for both. -/
theorem correlationID_collision_counterexample :
    (([("bc", "")] : List (String × String)) ≠ [("b", "c")]) ∧
    GenerateCorrelationID "A" [("bc", "")] = GenerateCorrelationID "A" [("b", "c")] :=
  ⟨by decide, congrArg (fun s => hexEncode (truncDigest s)) (by decide)⟩

/-- Claim C2, amended: distinct `(alertname, labels)` pairs give distinct
outputs exactly when their canonical serializations hash to distinct
truncated digests — hex encoding loses nothing — but pairs whose canonical
serializations coincide (possible, since no separators are inserted) always
collide. -/
theorem correlationID_distinct_digest_injective
    (n1 n2 : String) (l1 l2 : List (String × String))
    (h : truncDigest (canonicalString n1 l1) ≠ truncDigest (canonicalString n2 l2)) :
    GenerateCorrelationID n1 l1 ≠ GenerateCorrelationID n2 l2 :=
  fun he => h (hexEncode_inj (truncDigest_lt _) (truncDigest_lt _) he)

/-- Witness for the amended C2: alert names `"A"` and `"B"` with empty label
maps have distinct truncated digests, hence distinct correlation IDs. -/
theorem correlationID_distinct_digest_injective_witness :
    truncDigest (canonicalString "A" []) ≠ truncDigest (canonicalString "B" []) ∧
    GenerateCorrelationID "A" [] ≠ GenerateCorrelationID "B" [] := by
  have hd : truncDigest (canonicalString "A" []) ≠
      truncDigest (canonicalString "B" []) := by decide
  exact ⟨hd, correlationID_distinct_digest_injective "A" "B" [] [] hd⟩

/-! ## Facts about the retry loop -/

/-- A classified error in the 4xx range trips the short-circuit test. -/
lemma isClient4xx_true {s : Nat} (h4 : 400 ≤ s) (h5 : s < 500) :
    isClient4xx (.classified s) = true := by
  simp [isClient4xx]
  omega

/-- A classified error at or above 500 is not short-circuited. -/
lemma isClient4xx_false_of_ge500 {s : Nat} (h : 500 ≤ s) :
    isClient4xx (.classified s) = false := by
  simp [isClient4xx]
  omega

/-- A classified error below 400 is not short-circuited. -/
lemma isClient4xx_false_of_lt400 {s : Nat} (h : s < 400) :
    isClient4xx (.classified s) = false := by
  simp [isClient4xx]
  omega

/-- Running the loop across a block of `n` retryable, uncancelled failures
that are all followed by at least one more iteration just advances the
attempt counter and extends the wait list with the corresponding backoff
delays. -/
lemma retryGo_skip (fn : Nat → Option SnowError) (cancelled : Nat → Bool)
    (base maxD : Nat) :
    ∀ (n attempt r : Nat) (le : Option SnowError) (waits : List Int),
      n < r →
      (∀ i, i < n → ∃ e, fn (attempt + i) = some e ∧ isClient4xx e = false) →
      (∀ i, i < n → cancelled (attempt + i) = false) →
      ∃ le', retryGo fn cancelled base maxD attempt r le waits =
        retryGo fn cancelled base maxD (attempt + n) (r - n) le'
          (waits ++ (List.range n).map
            (fun i => calculateBackoff (attempt + i) base maxD)) := by
  intro n
  induction n with
  | zero =>
    intro attempt r le waits _ _ _
    exact ⟨le, by simp⟩
  | succ n ih =>
    intro attempt r le waits hr hfail hnc
    obtain ⟨e, hfe, h4⟩ := hfail 0 (Nat.succ_pos n)
    have hfe' : fn attempt = some e := by simpa using hfe
    have hc0 : cancelled attempt = false := by simpa using hnc 0 (Nat.succ_pos n)
    obtain ⟨r', rfl⟩ : ∃ r', r = r' + 1 := ⟨r - 1, by omega⟩
    have hr' : r' ≠ 0 := by omega
    have hstep : retryGo fn cancelled base maxD attempt (r' + 1) le waits =
        retryGo fn cancelled base maxD (attempt + 1) r' (some e)
          (waits ++ [calculateBackoff attempt base maxD]) := by
      simp [retryGo, hfe', h4, hr', hc0]
    obtain ⟨le', hrec⟩ := ih (attempt + 1) r' (some e)
      (waits ++ [calculateBackoff attempt base maxD]) (by omega)
      (fun i hi => by
        have h := hfail (i + 1) (by omega)
        rwa [show attempt + (i + 1) = attempt + 1 + i by omega] at h)
      (fun i hi => by
        have h := hnc (i + 1) (by omega)
        rwa [show attempt + (i + 1) = attempt + 1 + i by omega] at h)
    refine ⟨le', ?_⟩
    rw [hstep, hrec]
    have harg1 : attempt + 1 + n = attempt + (n + 1) := by omega
    have harg2 : r' - n = r' + 1 - (n + 1) := by omega
    have hlist : (waits ++ [calculateBackoff attempt base maxD]) ++
        (List.range n).map (fun i => calculateBackoff (attempt + 1 + i) base maxD) =
        waits ++ (List.range (n + 1)).map
          (fun i => calculateBackoff (attempt + i) base maxD) := by
      have hfun : (fun i => calculateBackoff (attempt + 1 + i) base maxD) =
          (fun i => calculateBackoff (attempt + (i + 1)) base maxD) := by
        funext i
        congr 1
        omega
      rw [List.append_assoc, List.range_succ_eq_map, hfun]
      simp [List.map_map, Function.comp, Nat.succ_eq_add_one]
    rw [harg1, harg2, hlist]

/-- When every attempt fails with a retryable error and the context is never
cancelled, the loop runs all `maxAttempts` attempts and returns the final
attempt's error. -/
lemma withRetry_all_fail (cfg : RetryConfig) (fn : Nat → Option SnowError)
    (cancelled : Nat → Bool) (hpos : 0 < cfg.maxAttempts)
    (hfail : ∀ n, n < cfg.maxAttempts → ∃ e, fn n = some e ∧ isClient4xx e = false)
    (hnc : ∀ n, cancelled n = false) :
    (WithRetry cfg fn cancelled).attempts = cfg.maxAttempts ∧
    ∀ e, fn (cfg.maxAttempts - 1) = some e →
      (WithRetry cfg fn cancelled).outcome = .failed e := by
  obtain ⟨m, hm⟩ : ∃ m, cfg.maxAttempts = m + 1 := ⟨cfg.maxAttempts - 1, by omega⟩
  obtain ⟨e0, hfe0, h40⟩ := hfail m (by omega)
  obtain ⟨le', hskip⟩ := retryGo_skip fn cancelled cfg.baseDelay cfg.maxDelay
    m 0 (m + 1) none [] (by omega)
    (fun i hi => by simpa using hfail i (by omega))
    (fun i _ => hnc _)
  have hfinal : retryGo fn cancelled cfg.baseDelay cfg.maxDelay m 1 le'
      (([] : List Int) ++ (List.range m).map
        (fun i => calculateBackoff (0 + i) cfg.baseDelay cfg.maxDelay)) =
      ⟨.failed e0, m + 1,
       ([] : List Int) ++ (List.range m).map
        (fun i => calculateBackoff (0 + i) cfg.baseDelay cfg.maxDelay)⟩ := by
    simp [retryGo, hfe0, h40]
  have hall : WithRetry cfg fn cancelled =
      ⟨.failed e0, m + 1,
       ([] : List Int) ++ (List.range m).map
        (fun i => calculateBackoff (0 + i) cfg.baseDelay cfg.maxDelay)⟩ := by
    unfold WithRetry
    rw [hm, hskip]
    rw [show 0 + m = m by omega, show m + 1 - m = 1 by omega]
    exact hfinal
  refine ⟨by rw [hall, hm], fun e he => ?_⟩
  have hme : fn m = some e := by rwa [hm, Nat.add_sub_cancel] at he
  have : e = e0 := Option.some.inj (hme.symm.trans hfe0)
  rw [hall, this]

/-- A duration of at most `2^53` nanoseconds is exactly representable as a
double, so `float64` conversion preserves it. -/
lemma round53_of_le {n : Nat} (h : n ≤ 2 ^ 53) : round53 n = n := by
  unfold round53
  rw [if_pos h]

/-- Below the int64 overflow threshold the backoff formula is
`min(round53(base) * 2^attempt, max)` — the float product converted
exactly. -/
lemma calculateBackoff_eq_min_general (attempt base maxD : Nat)
    (h : round53 base * 2 ^ attempt < 2 ^ 63) :
    calculateBackoff attempt base maxD =
      ((min (round53 base * 2 ^ attempt) maxD : Nat) : Int) := by
  simp only [calculateBackoff]
  rw [if_pos h]
  split_ifs with h1 <;> omega

/-- At or above the threshold the float-to-int64 conversion overflows to
`INT64_MIN` on the amd64 target, which the clamp does not touch. -/
lemma calculateBackoff_overflow (attempt base maxD : Nat)
    (h : 2 ^ 63 ≤ round53 base * 2 ^ attempt) :
    calculateBackoff attempt base maxD = -(2 ^ 63) := by
  simp only [calculateBackoff]
  rw [if_neg (by omega)]
  rw [if_neg (by omega)]

/-- For an exactly representable base delay whose scaled product does not
overflow, the backoff formula is the spec's `min(base * 2^attempt, max)`. -/
lemma calculateBackoff_eq_min {base : Nat} (h : base ≤ 2 ^ 53)
    (attempt maxD : Nat) (hov : base * 2 ^ attempt < 2 ^ 63) :
    calculateBackoff attempt base maxD =
      ((min (base * 2 ^ attempt) maxD : Nat) : Int) := by
  have hg := calculateBackoff_eq_min_general attempt base maxD
    (by rw [round53_of_le h]; exact hov)
  rwa [round53_of_le h] at hg

/-- Invariant of the retry loop: the waits performed so far are exactly the
backoff schedule `calculateBackoff 0, calculateBackoff 1, …`, one entry per
completed non-final failed attempt, and at most `maxAttempts - 1` waits ever
happen. -/
lemma retryGo_waits_schedule (fn : Nat → Option SnowError)
    (cancelled : Nat → Bool) (base maxD : Nat) :
    ∀ (r attempt : Nat) (le : Option SnowError) (acc : List Int),
      1 ≤ r →
      attempt = acc.length →
      acc = (List.range acc.length).map (fun i => calculateBackoff i base maxD) →
      (retryGo fn cancelled base maxD attempt r le acc).waits =
        (List.range (retryGo fn cancelled base maxD attempt r le acc).waits.length).map
          (fun i => calculateBackoff i base maxD) ∧
      (retryGo fn cancelled base maxD attempt r le acc).waits.length ≤
        attempt + r - 1 := by
  intro r
  induction r with
  | zero =>
    intro attempt le acc h _ _
    exact absurd h (by omega)
  | succ r' ih =>
    intro attempt le acc _ hlen hacc
    cases hf : fn attempt with
    | none =>
      simp only [retryGo, hf]
      exact ⟨hacc, by omega⟩
    | some e =>
      cases h4 : isClient4xx e with
      | true =>
        simp only [retryGo, hf, h4, if_true]
        exact ⟨hacc, by omega⟩
      | false =>
        by_cases hr0 : r' = 0
        · simp only [retryGo, hf, h4, Bool.false_eq_true, if_false, hr0, if_true]
          exact ⟨hacc, by omega⟩
        · cases hc : cancelled attempt with
          | true =>
            simp only [retryGo, hf, h4, Bool.false_eq_true, if_false, hr0, hc, if_true]
            exact ⟨hacc, by omega⟩
          | false =>
            have hacc' : acc ++ [calculateBackoff attempt base maxD] =
                (List.range ((acc ++ [calculateBackoff attempt base maxD]).length)).map
                  (fun i => calculateBackoff i base maxD) := by
              have hl : (acc ++ [calculateBackoff attempt base maxD]).length =
                  acc.length + 1 := by simp
              rw [hl, List.range_succ, List.map_append, ← hacc]
              congr 1
              simp [hlen]
            have hrec := ih (attempt + 1) (some e)
              (acc ++ [calculateBackoff attempt base maxD])
              (by omega) (by simp [hlen]) hacc'
            have hstep : retryGo fn cancelled base maxD attempt (r' + 1) le acc =
                retryGo fn cancelled base maxD (attempt + 1) r' (some e)
                  (acc ++ [calculateBackoff attempt base maxD]) := by
              simp only [retryGo, hf, h4, Bool.false_eq_true, if_false, hr0, hc]
            rw [hstep]
            exact ⟨hrec.1, by omega⟩

/-- Claim C4: a classified 4xx error is surfaced immediately — the attempt
that received it is the last, with no wait; when it hits the very first
attempt the whole run is exactly one attempt.  Classified errors at or above
500 are retried until the configured attempt budget is exhausted, and the
final attempt's failure is returned. -/
theorem withRetry_4xx_once_5xx_exhausts (cfg : RetryConfig)
    (fn : Nat → Option SnowError) (cancelled : Nat → Bool) :
    (∀ s, 400 ≤ s → s < 500 → 0 < cfg.maxAttempts →
        fn 0 = some (.classified s) →
        WithRetry cfg fn cancelled = ⟨.failed (.classified s), 1, []⟩) ∧
    ((∀ n, n < cfg.maxAttempts → ∃ s, 500 ≤ s ∧ fn n = some (.classified s)) →
      (∀ n, cancelled n = false) → 0 < cfg.maxAttempts →
      (WithRetry cfg fn cancelled).attempts = cfg.maxAttempts ∧
      ∀ e, fn (cfg.maxAttempts - 1) = some e →
        (WithRetry cfg fn cancelled).outcome = .failed e) := by
  constructor
  · intro s h4 h5 hpos hf0
    obtain ⟨m, hm⟩ : ∃ m, cfg.maxAttempts = m + 1 := ⟨cfg.maxAttempts - 1, by omega⟩
    unfold WithRetry
    rw [hm]
    simp [retryGo, hf0, isClient4xx_true h4 h5]
  · intro h5 hnc hpos
    exact withRetry_all_fail cfg fn cancelled hpos
      (fun n hn => by
        obtain ⟨s, hs, hf⟩ := h5 n hn
        exact ⟨.classified s, hf, isClient4xx_false_of_ge500 hs⟩)
      hnc

/-- Witness for C4: under the default configuration, a constant-400 closure
makes exactly one attempt, and a constant-500 closure makes all three and
returns the 500 error. -/
theorem withRetry_4xx_once_5xx_exhausts_witness :
    WithRetry DefaultRetryConfig (fun _ => some (.classified 400)) (fun _ => false) =
      ⟨.failed (.classified 400), 1, []⟩ ∧
    (WithRetry DefaultRetryConfig (fun _ => some (.classified 500))
        (fun _ => false)).attempts = 3 ∧
    (WithRetry DefaultRetryConfig (fun _ => some (.classified 500))
        (fun _ => false)).outcome = .failed (.classified 500) := by
  refine ⟨?_, ?_, ?_⟩
  · exact (withRetry_4xx_once_5xx_exhausts DefaultRetryConfig _ _).1 400
      (by decide) (by decide) (by decide) rfl
  · exact ((withRetry_4xx_once_5xx_exhausts DefaultRetryConfig _ _).2
      (fun n _ => ⟨500, by decide, rfl⟩) (fun _ => rfl) (by decide)).1
  · exact ((withRetry_4xx_once_5xx_exhausts DefaultRetryConfig _ _).2
      (fun n _ => ⟨500, by decide, rfl⟩) (fun _ => rfl) (by decide)).2
      (.classified 500) rfl

/-- Counterexample to C5: with a base delay of `2^53 + 1` nanoseconds (about
104 days — representable as `time.Duration` but not as a float64), the first
backoff wait is `2^53` ns, not the claimed `min(baseDelay * 2^0, maxDelay) =
2^53 + 1` ns: `float64(baseDelay)` rounds to the nearest even double before
the multiplication. -/
theorem backoff_not_exact_min_counterexample :
    (WithRetry ⟨2, 9007199254740993, 2 ^ 62⟩
        (fun _ => some (.classified 500)) (fun _ => false)).waits =
      [9007199254740992] ∧
    9007199254740992 ≠ min (9007199254740993 * 2 ^ 0) (2 ^ 62) := by
  constructor
  · decide
  · decide

/-- Claim C5, amended: every backoff wait that follows attempt `n` passes
the delay `min(round53(baseDelay) * 2^n, maxDelay)` to the sleep whenever
the float product `round53(baseDelay) * 2^n` stays below `2^63` ns — in
particular exactly the claimed `min(baseDelay * 2^n, maxDelay)` when the
base delay is also float64-representable (`baseDelay ≤ 2^53` ns, every
realistic configuration); once the product reaches `2^63` the
float-to-`time.Duration` conversion overflows to `INT64_MIN` on the
repository's amd64 target, so the computed delay is negative and the wait
fires immediately.  The loop never waits after the final attempt: at most
`maxAttempts - 1` waits occur. -/
theorem withRetry_backoff_schedule (cfg : RetryConfig)
    (fn : Nat → Option SnowError) (cancelled : Nat → Bool)
    (hpos : 0 < cfg.maxAttempts) :
    (∀ n d, (WithRetry cfg fn cancelled).waits.get? n = some d →
        (round53 cfg.baseDelay * 2 ^ n < 2 ^ 63 →
          d = ((min (round53 cfg.baseDelay * 2 ^ n) cfg.maxDelay : Nat) : Int)) ∧
        (cfg.baseDelay ≤ 2 ^ 53 → cfg.baseDelay * 2 ^ n < 2 ^ 63 →
          d = ((min (cfg.baseDelay * 2 ^ n) cfg.maxDelay : Nat) : Int)) ∧
        (2 ^ 63 ≤ round53 cfg.baseDelay * 2 ^ n → d = -(2 ^ 63))) ∧
    (WithRetry cfg fn cancelled).waits.length ≤ cfg.maxAttempts - 1 := by
  have h := retryGo_waits_schedule fn cancelled cfg.baseDelay cfg.maxDelay
    cfg.maxAttempts 0 none [] hpos (by simp) (by simp)
  have hw : (WithRetry cfg fn cancelled).waits =
      (List.range (WithRetry cfg fn cancelled).waits.length).map
        (fun i => calculateBackoff i cfg.baseDelay cfg.maxDelay) := h.1
  constructor
  · intro n d hget
    have hd : d = calculateBackoff n cfg.baseDelay cfg.maxDelay := by
      rw [hw, List.get?_map] at hget
      rcases hx : (List.range ((WithRetry cfg fn cancelled).waits.length)).get? n
        with _ | m
      · rw [hx] at hget
        simp at hget
      · rw [hx] at hget
        simp only [Option.map_some'] at hget
        have hm : m = n := by
          have hlt : n < (List.range ((WithRetry cfg fn cancelled).waits.length)).length :=
            (List.get?_eq_some.mp hx).1
          rw [List.length_range] at hlt
          rw [List.get?_range hlt] at hx
          exact (Option.some.inj hx).symm
        rw [← hm]
        exact (Option.some.inj hget).symm
    refine ⟨fun hov => ?_, fun hb hov => ?_, fun hov => ?_⟩
    · rw [hd]
      exact calculateBackoff_eq_min_general n cfg.baseDelay cfg.maxDelay hov
    · rw [hd]
      exact calculateBackoff_eq_min hb n cfg.maxDelay hov
    · rw [hd]
      exact calculateBackoff_overflow n cfg.baseDelay cfg.maxDelay hov
  · have h2 : (WithRetry cfg fn cancelled).waits.length ≤
        0 + cfg.maxAttempts - 1 := h.2
    omega

/-- Witness for the amended C5: under the default configuration (1s base,
10s cap) with a constant-500 closure, the first completed wait is exactly
1s = `min(1s * 2^0, 10s)`; and with the same 1s base but 36 attempts, the
wait after attempt 34 overflows the conversion (1s * 2^34 ≥ 2^63 ns) and is
the negative `INT64_MIN`. -/
theorem withRetry_backoff_schedule_witness :
    (WithRetry DefaultRetryConfig (fun _ => some (.classified 500))
        (fun _ => false)).waits.get? 0 = some 1000000000 ∧
    (1000000000 : Int) = ((min (1000000000 * 2 ^ 0) 10000000000 : Nat) : Int) ∧
    (WithRetry ⟨36, 1000000000, 10000000000⟩ (fun _ => some (.classified 500))
        (fun _ => false)).waits.get? 34 = some (-(2 ^ 63)) ∧
    (-(2 ^ 63) : Int) = -(2 ^ 63) := by
  have h1 := ((withRetry_backoff_schedule DefaultRetryConfig
      (fun _ => some (.classified 500)) (fun _ => false) (by decide)).1
      0 1000000000 (by decide)).2.1 (by decide) (by decide)
  have h2 := ((withRetry_backoff_schedule ⟨36, 1000000000, 10000000000⟩
      (fun _ => some (.classified 500)) (fun _ => false) (by decide)).1
      34 (-(2 ^ 63)) (by decide)).2.2 (by decide)
  exact ⟨by decide, h1, by decide, h2⟩

/-- Claim C6: if the caller's context is (or becomes) done during the
backoff wait that follows attempt `n` — all attempts so far having failed
retryably, with no earlier cancellation — the loop stops with the context's
cancellation error and performs no further attempt. -/
theorem withRetry_cancelled_mid_backoff (cfg : RetryConfig)
    (fn : Nat → Option SnowError) (cancelled : Nat → Bool) (n : Nat)
    (hn : n + 1 < cfg.maxAttempts)
    (hfail : ∀ i, i ≤ n → ∃ e, fn i = some e ∧ isClient4xx e = false)
    (hnc : ∀ i, i < n → cancelled i = false)
    (hc : cancelled n = true) :
    (WithRetry cfg fn cancelled).outcome = .ctxCancelled ∧
    (WithRetry cfg fn cancelled).attempts = n + 1 := by
  obtain ⟨le', hskip⟩ := retryGo_skip fn cancelled cfg.baseDelay cfg.maxDelay
    n 0 cfg.maxAttempts none [] (by omega)
    (fun i hi => by simpa using hfail i (by omega))
    (fun i hi => by simpa using hnc i hi)
  obtain ⟨r', hreq⟩ : ∃ r', cfg.maxAttempts - n = r' + 1 :=
    ⟨cfg.maxAttempts - n - 1, by omega⟩
  have hr0 : r' ≠ 0 := by omega
  obtain ⟨e, hfe, h4⟩ := hfail n (le_refl n)
  unfold WithRetry
  rw [hskip, hreq, show 0 + n = n by omega]
  simp [retryGo, hfe, h4, hr0, hc]

/-- Witness for C6: default configuration, every attempt failing with a 500,
context cancelled during the wait after the second attempt (index 1): the
run is cancelled after exactly two attempts. -/
theorem withRetry_cancelled_mid_backoff_witness :
    (WithRetry DefaultRetryConfig (fun _ => some (.classified 500))
        (fun i => decide (i = 1))).outcome = .ctxCancelled ∧
    (WithRetry DefaultRetryConfig (fun _ => some (.classified 500))
        (fun i => decide (i = 1))).attempts = 2 :=
  withRetry_cancelled_mid_backoff DefaultRetryConfig _ _ 1 (by decide)
    (fun i _ => ⟨.classified 500, rfl, by decide⟩)
    (fun i hi => by
      have : i ≠ 1 := by omega
      simp [this])
    (by decide)

/-- Claim C10: a classified error whose status lies outside both the 2xx and
the 4xx ranges — a 3xx redirect, say — is wrapped by `checkResponse` like any
other non-2xx status, is not short-circuited by the 4xx test, and is
therefore retried up to the configured attempt budget. -/
theorem retry_non2xx_non4xx_retryable (cfg : RetryConfig) (s : Nat)
    (cancelled : Nat → Bool)
    (hs2 : ¬(200 ≤ s ∧ s < 300)) (hs4 : ¬(400 ≤ s ∧ s < 500))
    (hnc : ∀ n, cancelled n = false) (hpos : 0 < cfg.maxAttempts) :
    checkResponse s = some (.classified s) ∧
    (WithRetry cfg (fun _ => checkResponse s) cancelled).attempts =
      cfg.maxAttempts ∧
    (WithRetry cfg (fun _ => checkResponse s) cancelled).outcome =
      .failed (.classified s) := by
  have hcr : checkResponse s = some (.classified s) := by
    unfold checkResponse
    rw [if_neg hs2]
  have h4 : isClient4xx (.classified s) = false := by
    rcases Nat.lt_or_ge s 400 with h | h
    · exact isClient4xx_false_of_lt400 h
    · exact isClient4xx_false_of_ge500 (by omega)
  have hall := withRetry_all_fail cfg (fun _ => checkResponse s) cancelled hpos
    (fun n _ => ⟨.classified s, hcr, h4⟩) hnc
  exact ⟨hcr, hall.1, hall.2 _ hcr⟩

/-- Witness for C10: every attempt answering 301 under the default
configuration exhausts all three attempts and fails with the 301 error. -/
theorem retry_non2xx_non4xx_retryable_witness :
    checkResponse 301 = some (.classified 301) ∧
    (WithRetry DefaultRetryConfig (fun _ => checkResponse 301)
        (fun _ => false)).attempts = 3 ∧
    (WithRetry DefaultRetryConfig (fun _ => checkResponse 301)
        (fun _ => false)).outcome = .failed (.classified 301) :=
  retry_non2xx_non4xx_retryable DefaultRetryConfig 301 _
    (by decide) (by decide) (fun _ => rfl) (by decide)

/-- The HTTP environment exhibiting claim C9: the first create attempt is
accepted by the server (HTTP 201) but its response body fails to parse; the
second attempt succeeds fully. -/
def parseFailEnv : Nat → HttpAttempt CreateIncidentResult := fun n =>
  if n = 0 then .response 201 (.error ())
  else .response 201 (.ok ⟨"sys1", "INC0000001"⟩)

/-- Claim C9 (implicit behavior): an attempt whose HTTP response is 2xx but
whose body fails to read or unmarshal yields a plain, unclassified error;
the 4xx short-circuit does not catch it, so the retry loop re-sends the
whole create request — two create requests for one firing alert even though
the external system accepted the first. -/
theorem createIncident_resends_after_2xx_parse_failure :
    checkResponse 201 = none ∧
    createAttempt parseFailEnv 0 =
      some (.plain "failed to read or unmarshal response") ∧
    isClient4xx (.plain "failed to read or unmarshal response") = false ∧
    (CreateIncident DefaultRetryConfig parseFailEnv (fun _ => false)).1.attempts = 2 ∧
    (CreateIncident DefaultRetryConfig parseFailEnv (fun _ => false)).1.outcome = .ok := by
  refine ⟨rfl, rfl, rfl, ?_, ?_⟩ <;> decide

/-! ## Facts about the webhook handler -/

/-- How one alert changes the recorded create calls: a firing alert appends
its transformed incident — regardless of the client's answer — and any other
alert leaves them untouched. -/
lemma processAlert_createCalls (client : ClientBehavior) (cfg : Config)
    (alert : Alert) (url : String) (st : ProcState) :
    (processAlert client cfg alert url st).2.createCalls =
      if alert.status = AlertStatusFiring then
        st.createCalls ++ [Transform cfg alert url]
      else st.createCalls := by
  by_cases hf : alert.status = AlertStatusFiring
  · simp only [processAlert, handleFiringAlert, hf, if_true]
    cases client.create st.createCalls.length <;> simp
  · simp only [processAlert, handleFiringAlert, handleResolvedAlert, hf, if_false]
    by_cases hr : alert.status = AlertStatusResolved
    · simp only [hr, if_true]
      cases hfind : client.find st.findCalls with
      | error e => simp
      | ok o =>
        cases o with
        | none => simp
        | some ex => cases client.resolve st.resolveCalls.length <;> simp
    · simp [hr]

/-- Folding the handler's per-alert step over a batch appends exactly the
transforms of the firing alerts, in order, whatever the client answers. -/
lemma serveHTTP_fold_createCalls (client : ClientBehavior) (cfg : Config)
    (url : String) :
    ∀ (alerts : List Alert) (acc : Nat × ProcState),
      (alerts.foldl (fun acc alert =>
          match processAlert client cfg alert url acc.2 with
          | (some _, st) => (acc.1 + 1, st)
          | (none, st) => (acc.1, st)) acc).2.createCalls =
        acc.2.createCalls ++
          (alerts.filter (fun a => a.status == AlertStatusFiring)).map
            (fun a => Transform cfg a url) := by
  intro alerts
  induction alerts with
  | nil => intro acc; simp
  | cons a t ih =>
    intro acc
    simp only [List.foldl_cons]
    rcases hp : processAlert client cfg a url acc.2 with ⟨err, st⟩
    have hcc : st.createCalls =
        if a.status = AlertStatusFiring then
          acc.2.createCalls ++ [Transform cfg a url]
        else acc.2.createCalls := by
      have h := processAlert_createCalls client cfg a url acc.2
      rw [hp] at h
      exact h
    by_cases hf : a.status = AlertStatusFiring
    · rw [if_pos hf] at hcc
      have hfil : (a :: t).filter (fun a => a.status == AlertStatusFiring) =
          a :: t.filter (fun a => a.status == AlertStatusFiring) := by
        simp [List.filter_cons, hf]
      rw [hfil]
      cases err <;> simp only [hp] <;> rw [ih] <;> simp [hcc]
    · rw [if_neg hf] at hcc
      have hfil : (a :: t).filter (fun a => a.status == AlertStatusFiring) =
          t.filter (fun a => a.status == AlertStatusFiring) := by
        simp [List.filter_cons, hf]
      rw [hfil]
      cases err <;> simp only [hp] <;> rw [ih] <;> simp [hcc]

/-- Claim C3: for every payload that parsed, the handler answers 200 and
makes one create call per firing alert, in batch order — whatever errors the
client returns for any of the calls, so no alert's failure suppresses the
processing of the alerts after it. -/
theorem serveHTTP_batch_processing (client : ClientBehavior) (cfg : Config)
    (payload : AlertmanagerPayload) :
    (ServeHTTP client cfg "POST" (some payload)).code = 200 ∧
    (ServeHTTP client cfg "POST" (some payload)).state.createCalls =
      (payload.alerts.filter (fun a => a.status == AlertStatusFiring)).map
        (fun a => Transform cfg a payload.externalURL) := by
  refine ⟨rfl, ?_⟩
  have h := serveHTTP_fold_createCalls client cfg payload.externalURL
    payload.alerts (0, emptyProcState)
  simpa [ServeHTTP, emptyProcState] using h

/-- Claim C8: a resolved alert whose lookup comes back empty-but-successful
is a no-op: the find call is made, no resolve call happens, and no error is
surfaced; and `FindIncidentByCorrelationID` itself answers `none` without
error when the service responds 200 with an empty result list. -/
theorem resolved_alert_absent_noop (client : ClientBehavior) (cfg : Config)
    (alert : Alert) (externalURL : String) (st : ProcState)
    (env : Nat → HttpAttempt (List SNResult)) (rcfg : RetryConfig)
    (cancelled : Nat → Bool)
    (hst : alert.status = AlertStatusResolved)
    (hfind : client.find st.findCalls = .ok none)
    (henv : env 0 = .response 200 (.ok []))
    (hpos : 0 < rcfg.maxAttempts) :
    processAlert client cfg alert externalURL st =
      (none, { st with findCalls := st.findCalls + 1 }) ∧
    FindIncidentByCorrelationID rcfg env cancelled = (⟨.ok, 1, []⟩, none) := by
  constructor
  · simp [processAlert, hst, AlertStatusFiring, AlertStatusResolved,
      handleResolvedAlert, hfind]
  · have h0 : findAttempt env 0 = none := by
      simp [findAttempt, henv, checkResponse]
    obtain ⟨m, hm⟩ : ∃ m, rcfg.maxAttempts = m + 1 :=
      ⟨rcfg.maxAttempts - 1, by omega⟩
    unfold FindIncidentByCorrelationID WithRetry
    rw [hm]
    simp [retryGo, h0, henv]

/-- Witness for C8: a concrete resolved alert against a client whose lookup
answers "absent", and a concrete find environment answering 200 with an
empty list. -/
theorem resolved_alert_absent_noop_witness :
    processAlert ⟨fun _ => .ok ⟨"s", "n"⟩, fun _ => .ok none, fun _ => .ok ()⟩
        ⟨"cluster", "environment", "3", "3", "software", "openshift", "", ""⟩
        ⟨"resolved", [("alertname", "TestAlert")], [], "t", ""⟩ "" emptyProcState =
      (none, { emptyProcState with findCalls := 1 }) ∧
    FindIncidentByCorrelationID DefaultRetryConfig
        (fun _ => .response 200 (.ok [])) (fun _ => false) = (⟨.ok, 1, []⟩, none) :=
  resolved_alert_absent_noop _ _ _ "" emptyProcState _ DefaultRetryConfig _
    rfl rfl rfl (by decide)

/-! ## Facts about cluster-name extraction and rendering -/

/-- `strings.Index` answers 0 whenever the needle starts the haystack. -/
lemma firstInfixIdx_of_isPrefix {l sub : List Char}
    (h : sub.isPrefixOf l = true) : firstInfixIdx l sub = some 0 := by
  cases l <;> simp [firstInfixIdx, h]

/-- The scan finds the needle exactly where a decomposition places it,
provided no earlier position carries it. -/
lemma firstInfixIdx_append (sub : List Char) :
    ∀ (a b : List Char),
      (∀ j, j < a.length → sub.isPrefixOf ((a ++ sub ++ b).drop j) = false) →
      firstInfixIdx (a ++ sub ++ b) sub = some a.length := by
  intro a
  induction a with
  | nil =>
    intro b _
    have hp : sub.isPrefixOf (sub ++ b) = true :=
      List.isPrefixOf_iff_prefix.mpr (List.prefix_append _ _)
    simpa using firstInfixIdx_of_isPrefix hp
  | cons x a' ih =>
    intro b hno
    have h0 : sub.isPrefixOf (x :: (a' ++ sub ++ b)) = false := by
      have := hno 0 (by simp)
      simpa using this
    have hrest := ih b (fun j hj => by
      have := hno (j + 1) (by simp; omega)
      simpa using this)
    show firstInfixIdx (x :: (a' ++ sub ++ b)) sub = some (a'.length + 1)
    rw [show firstInfixIdx (x :: (a' ++ sub ++ b)) sub =
        if sub.isPrefixOf (x :: (a' ++ sub ++ b)) = true then some 0
        else (firstInfixIdx (a' ++ sub ++ b) sub).map (· + 1) from rfl]
    rw [h0]
    simp only [Bool.false_eq_true, if_false]
    rw [hrest]
    rfl

/-- The scan answers "absent" when no position up to the end carries the
needle. -/
lemma firstInfixIdx_none {sub : List Char} :
    ∀ (l : List Char),
      (∀ j, j ≤ l.length → sub.isPrefixOf (l.drop j) = false) →
      firstInfixIdx l sub = none := by
  intro l
  induction l with
  | nil =>
    intro h
    have h0 := h 0 (by simp)
    simp only [List.drop_nil] at h0
    simp [firstInfixIdx, h0]
  | cons x t ih =>
    intro h
    have h0 := h 0 (by simp)
    rw [List.drop_zero] at h0
    have ht := ih (fun j hj => by
      have := h (j + 1) (by simp; omega)
      simpa using this)
    show (if sub.isPrefixOf (x :: t) = true then some 0
        else (firstInfixIdx t sub).map (· + 1)) = none
    rw [h0]
    simp [ht]

/-- One unfolding step of the scan on a cons cell whose head does not start
the needle. -/
lemma firstInfixIdx_cons_step {sub : List Char} {x : Char}
    {t : List Char} (hp : sub.isPrefixOf (x :: t) = false) :
    firstInfixIdx (x :: t) sub = (firstInfixIdx t sub).map (· + 1) := by
  rw [show firstInfixIdx (x :: t) sub =
      if sub.isPrefixOf (x :: t) = true then some 0
      else (firstInfixIdx t sub).map (· + 1) from rfl]
  rw [hp]
  simp

/-- When no dot occurs, the whole list is its own longest dot-free prefix. -/
lemma firstInfixIdx_dot_none : ∀ {b : List Char},
    firstInfixIdx b ".".data = none →
    b.takeWhile (fun c => c != '.') = b := by
  intro b
  induction b with
  | nil => intro _; rfl
  | cons x t ih =>
    intro h
    by_cases hx : x = '.'
    · subst hx
      rw [firstInfixIdx_of_isPrefix (by simp [List.isPrefixOf])] at h
      exact absurd h (by simp)
    · have hp : (".".data).isPrefixOf (x :: t) = false := by
        simp [List.isPrefixOf]
        exact fun hc => absurd hc.symm hx
      rw [firstInfixIdx_cons_step hp] at h
      have ht : firstInfixIdx t ".".data = none := by
        cases hr : firstInfixIdx t ".".data
        · rfl
        · rw [hr] at h
          exact absurd h (by simp)
      have hcond : (x != '.') = true := by simp [hx]
      rw [List.takeWhile_cons, hcond]
      simp [ih ht]

/-- When the first dot sits at index `d`, the longest dot-free prefix is the
first `d` characters — the text Go takes with `afterApps[:dotIdx]`. -/
lemma firstInfixIdx_dot_some : ∀ {b : List Char} {d : Nat},
    firstInfixIdx b ".".data = some d →
    b.takeWhile (fun c => c != '.') = b.take d := by
  intro b
  induction b with
  | nil =>
    intro d h
    rw [show firstInfixIdx ([] : List Char) ".".data = none from by
      simp [firstInfixIdx, List.isPrefixOf]] at h
    exact absurd h (by simp)
  | cons x t ih =>
    intro d h
    by_cases hx : x = '.'
    · subst hx
      rw [firstInfixIdx_of_isPrefix (by simp [List.isPrefixOf])] at h
      have hd : d = 0 := (Option.some.inj h).symm
      subst hd
      have hcond : ('.' != '.') = false := by simp
      rw [List.takeWhile_cons, hcond]
      simp
    · have hp : (".".data).isPrefixOf (x :: t) = false := by
        simp [List.isPrefixOf]
        exact fun hc => absurd hc.symm hx
      rw [firstInfixIdx_cons_step hp] at h
      obtain ⟨d', hd', hdd⟩ := Option.map_eq_some'.mp h
      subst hdd
      have hcond : (x != '.') = true := by simp [hx]
      rw [List.takeWhile_cons, hcond]
      simp only [List.take_succ_cons]
      simp [ih hd']

/-- The cluster segment of a hostname that carries `".apps."` first at a
given split: everything between that occurrence and the next dot (or the
whole remainder). -/
lemma clusterFromHost_split (a b : List Char)
    (hno : ∀ j, j < a.length →
      (".apps.".data).isPrefixOf ((a ++ ".apps.".data ++ b).drop j) = false) :
    clusterFromHost ⟨a ++ ".apps.".data ++ b⟩ =
      ⟨b.takeWhile (fun c => c != '.')⟩ := by
  have hdrop : (a ++ ".apps.".data ++ b).drop (a.length + 6) = b := by
    rw [show a ++ ".apps.".data ++ b = (a ++ ".apps.".data) ++ b from by
      simp [List.append_assoc]]
    rw [show a.length + 6 = (a ++ ".apps.".data).length from by
      simp [List.length_append]]
    exact List.drop_left _ _
  unfold clusterFromHost
  rw [show (String.mk (a ++ ".apps.".data ++ b)).data =
      a ++ ".apps.".data ++ b from rfl]
  rw [firstInfixIdx_append _ a b hno]
  simp only [hdrop]
  cases hd : firstInfixIdx b ".".data with
  | none =>
    simp only [hd]
    exact congrArg String.mk (firstInfixIdx_dot_none hd).symm
  | some d =>
    simp only [hd]
    exact congrArg String.mk (firstInfixIdx_dot_some hd).symm

/-- Suffix-extension composes. -/
lemma exists_append_trans {b c d : String} (h1 : ∃ r, c = b ++ r)
    (h2 : ∃ r, d = c ++ r) : ∃ r, d = b ++ r := by
  obtain ⟨r1, e1⟩ := h1
  obtain ⟨r2, e2⟩ := h2
  exact ⟨r1 ++ r2, by rw [e2, e1, String.append_assoc]⟩

/-- The label block of the long description only ever appends. -/
lemma exists_append_foldl (labels : List (String × String)) :
    ∀ (ks : List String) (b : String),
      ∃ r, ks.foldl
        (fun acc k => acc ++ "  " ++ k ++ ": " ++ lookupLabel labels k ++ "\n")
        b = b ++ r := by
  intro ks
  induction ks with
  | nil => intro b; exact ⟨"", (String.append_empty b).symm⟩
  | cons k t ih =>
    intro b
    simp only [List.foldl_cons]
    refine exists_append_trans ?_ (ih _)
    exact exists_append_trans (exists_append_trans (exists_append_trans
      (exists_append_trans ⟨"  ", rfl⟩ ⟨k, rfl⟩) ⟨": ", rfl⟩)
      ⟨lookupLabel labels k, rfl⟩) ⟨"\n", rfl⟩

/-- A conditional append step only ever appends. -/
lemma exists_append_ite (b c : String) (P : Prop) [Decidable P]
    (h : ∃ r, c = b ++ r) : ∃ r, (if P then c else b) = b ++ r := by
  split_ifs with hp
  · exact h
  · exact ⟨"", (String.append_empty b).symm⟩

set_option maxHeartbeats 1000000 in
/-- The long description starts with the header block — alert name line,
cluster line, environment, severity, start time — and everything after the
header only appends. -/
lemma buildDescription_header (alert : Alert)
    (cluster environment severity ns pod container : String) :
    ∃ rest, buildDescription alert cluster environment severity ns pod container =
      "Alert: " ++ lookupLabel alert.labels "alertname" ++ "\n" ++
      "Cluster: " ++ cluster ++ "\n" ++
      "Environment: " ++ environment ++ "\n" ++
      "Severity: " ++ severity ++ "\n" ++
      "Started At: " ++ alert.startsAtFormatted ++ "\n" ++ rest := by
  unfold buildDescription
  refine exists_append_trans ?_
    (exists_append_foldl alert.labels (sortedKeys alert.labels) _)
  refine exists_append_trans ?_ ⟨"\nAll Labels:\n", rfl⟩
  refine exists_append_trans ?_ (exists_append_ite _ _ _
    (exists_append_trans (exists_append_trans
      ⟨"\nPrometheus Link: ", rfl⟩ ⟨alert.generatorURL, rfl⟩) ⟨"\n", rfl⟩))
  refine exists_append_trans ?_ (exists_append_ite _ _ _
    (exists_append_trans (exists_append_trans
      ⟨"\nOpenShift Console: ", rfl⟩ ⟨buildConsoleURL cluster ns, rfl⟩) ⟨"\n", rfl⟩))
  refine exists_append_trans ?_ (exists_append_ite _ _ _ (by
    refine exists_append_trans ?_ (exists_append_ite _ _ _
      (exists_append_trans (exists_append_trans
        ⟨"  Container: ", rfl⟩ ⟨container, rfl⟩) ⟨"\n", rfl⟩))
    refine exists_append_trans ?_ (exists_append_ite _ _ _
      (exists_append_trans (exists_append_trans
        ⟨"  Pod: ", rfl⟩ ⟨pod, rfl⟩) ⟨"\n", rfl⟩))
    refine exists_append_trans ?_ (exists_append_ite _ _ _
      (exists_append_trans (exists_append_trans
        ⟨"  Namespace: ", rfl⟩ ⟨ns, rfl⟩) ⟨"\n", rfl⟩))
    exact ⟨"\nResource Information:\n", rfl⟩))
  refine exists_append_trans ?_ (exists_append_ite _ _ _
    (exists_append_trans (exists_append_trans
      ⟨"\nDescription:\n", rfl⟩
      ⟨lookupLabel alert.annotations "description", rfl⟩) ⟨"\n", rfl⟩))
  exact exists_append_ite _ _ _
    (exists_append_trans (exists_append_trans
      ⟨"\nSummary:\n", rfl⟩
      ⟨lookupLabel alert.annotations "summary", rfl⟩) ⟨"\n", rfl⟩)

/-- Claim C7: cluster-name resolution and its rendering.  In order: a
non-empty value under the configured cluster label key wins outright; with
an empty label value the name is whatever URL extraction yields (the empty
string when the URL is empty or patternless); when the hostname carries
`".apps."` first at a given position the cluster is the text between it and
the next dot (or the whole remainder); a hostname with no `".apps."`
anywhere yields `""`; and an empty cluster renders as the literal
`unknown-cluster` in the short description while the long body's
`Cluster: ` line stays the empty string. -/
theorem cluster_resolution_order :
    (∀ (cfg : Config) (alert : Alert),
        lookupLabel alert.labels cfg.clusterLabelKey ≠ "" →
        extractClusterName cfg alert = lookupLabel alert.labels cfg.clusterLabelKey) ∧
    (∀ (cfg : Config) (alert : Alert),
        lookupLabel alert.labels cfg.clusterLabelKey = "" →
        extractClusterName cfg alert = extractClusterFromURL alert.generatorURL) ∧
    (∀ (a b : List Char),
        (∀ j, j < a.length →
          (".apps.".data).isPrefixOf ((a ++ ".apps.".data ++ b).drop j) = false) →
        clusterFromHost ⟨a ++ ".apps.".data ++ b⟩ =
          ⟨b.takeWhile (fun c => c != '.')⟩) ∧
    (∀ (host : String),
        (∀ j, j ≤ host.data.length →
          (".apps.".data).isPrefixOf (host.data.drop j) = false) →
        clusterFromHost host = "") ∧
    (∀ (cfg : Config) (alert : Alert) (url : String),
        extractClusterName cfg alert = "" →
        (Transform cfg alert url).shortDescription =
          (if lookupLabel alert.labels "namespace" ≠ "" then
            "[" ++ "unknown-cluster" ++ "] " ++ lookupLabel alert.labels "alertname" ++
              " in namespace: " ++ lookupLabel alert.labels "namespace"
          else "[" ++ "unknown-cluster" ++ "] " ++ lookupLabel alert.labels "alertname")) ∧
    (∀ (cfg : Config) (alert : Alert) (url : String),
        extractClusterName cfg alert = "" →
        ∃ rest, (Transform cfg alert url).description =
          "Alert: " ++ lookupLabel alert.labels "alertname" ++ "\n" ++
          "Cluster: " ++ "" ++ "\n" ++
          "Environment: " ++ lookupLabel alert.labels cfg.environmentLabelKey ++ "\n" ++
          "Severity: " ++ lookupLabel alert.labels "severity" ++ "\n" ++
          "Started At: " ++ alert.startsAtFormatted ++ "\n" ++ rest) := by
  refine ⟨?_, ?_, ?_, ?_, ?_, ?_⟩
  · intro cfg alert h
    simp only [extractClusterName]
    rw [if_pos h]
  · intro cfg alert h
    simp only [extractClusterName, h]
    by_cases hurl : alert.generatorURL = ""
    · simp only [hurl]
      norm_num
      decide
    · by_cases hX : extractClusterFromURL alert.generatorURL = ""
      · simp [hurl, hX]
      · simp [hurl, hX]
  · exact clusterFromHost_split
  · intro host h
    unfold clusterFromHost
    rw [firstInfixIdx_none host.data (fun j hj => h j hj)]
  · intro cfg alert url h
    show buildShortDescription (extractClusterName cfg alert)
        (lookupLabel alert.labels "alertname")
        (lookupLabel alert.labels "namespace") = _
    rw [h]
    unfold buildShortDescription
    norm_num
  · intro cfg alert url h
    obtain ⟨rest, hrest⟩ := buildDescription_header alert
      (extractClusterName cfg alert)
      (lookupLabel alert.labels cfg.environmentLabelKey)
      (lookupLabel alert.labels "severity")
      (lookupLabel alert.labels "namespace")
      (lookupLabel alert.labels "pod")
      (lookupLabel alert.labels "container")
    refine ⟨rest, ?_⟩
    show buildDescription alert (extractClusterName cfg alert)
        (lookupLabel alert.labels cfg.environmentLabelKey)
        (lookupLabel alert.labels "severity")
        (lookupLabel alert.labels "namespace")
        (lookupLabel alert.labels "pod")
        (lookupLabel alert.labels "container") = _
    rw [h] at hrest
    rw [h]
    exact hrest

/-- Witness for C7, on the spec's own examples: an alert with no cluster
label and the console URL resolves to the URL-derived `os-lb3az1d1`; a
`cluster` label wins over the URL; the `".apps."` split and the no-match
case behave as stated on concrete hostnames; and a clusterless alert renders
`unknown-cluster` in its short description. -/
theorem cluster_resolution_order_witness :
    lookupLabel [("alertname", "ClusterOperatorDown"),
      ("namespace", "openshift-cluster-version")] "cluster" = "" ∧
    extractClusterName
        ⟨"cluster", "environment", "3", "3", "software", "openshift", "", ""⟩
        ⟨"firing",
         [("alertname", "ClusterOperatorDown"),
          ("namespace", "openshift-cluster-version")], [], "t",
         "https://console-openshift-console.apps.os-lb3az1d1.ssnc-corp.cloud/monitoring/alerts"⟩ =
      extractClusterFromURL
        "https://console-openshift-console.apps.os-lb3az1d1.ssnc-corp.cloud/monitoring/alerts" ∧
    extractClusterFromURL
      "https://console-openshift-console.apps.os-lb3az1d1.ssnc-corp.cloud/monitoring/alerts" =
      "os-lb3az1d1" ∧
    extractClusterName
        ⟨"cluster", "environment", "3", "3", "software", "openshift", "", ""⟩
        ⟨"firing",
         [("alertname", "TestAlert"), ("cluster", "label-cluster")], [], "t",
         "https://console.apps.url-cluster.example.com/"⟩ = "label-cluster" ∧
    clusterFromHost
        ⟨"console-openshift-console".data ++ ".apps.".data ++
          "os-lb3az1d1.ssnc-corp.cloud".data⟩ =
      ⟨("os-lb3az1d1.ssnc-corp.cloud".data).takeWhile (fun c => c != '.')⟩ ∧
    clusterFromHost "prometheus.example.com" = "" ∧
    (Transform ⟨"cluster", "environment", "3", "3", "software", "openshift", "", ""⟩
        ⟨"firing", [("alertname", "TestAlert"), ("severity", "warning")], [],
         "t", ""⟩ "").shortDescription =
      "[" ++ "unknown-cluster" ++ "] " ++ "TestAlert" := by
  refine ⟨by decide, ?_, by decide, ?_, ?_, ?_, ?_⟩
  · exact cluster_resolution_order.2.1 _ _ (by decide)
  · exact (cluster_resolution_order.1 _ _ (by decide)).trans (by decide)
  · exact cluster_resolution_order.2.2.1 _ _ (by decide)
  · exact cluster_resolution_order.2.2.2.1 _ (by decide)
  · exact (cluster_resolution_order.2.2.2.2.1 _ _ "" (by decide)).trans (by decide)

end AlertAgent
